import Mathlib

/-!
# go-stacktrace: the `errorhandler` package

A shallow embedding of `errorhandler/errorhandler.go` and theorems about it.

Conventions of the embedding.

* Go strings are Lean strings (texts are taken to be valid UTF-8, for which the
  byte-wise `strings.Contains` agrees with containment of character sequences).
* A value of the interface type `error` is a `GoError`: `nil`, a pointer to a
  `TracedError`, or a value of some other error type, given by its `Error()`
  text and by what its `Unwrap() error` method returns (`nil` when the type has
  no such method). Pointers to `TracedError` are non-nil and are identified with
  the record they point to; custom `As` and `Is` methods of other error types
  are outside the model.
* A run-time panic (calling a method on a nil interface) is an `Except.error`.
* The package variable `EnableColors` is passed explicitly to the functions that
  read it. The colour constants (`Reset`, `Red`, ...) are declared outside
  `errorhandler.go`; they are a parameter (`Palette`). The symbol table used by
  `runtime.CallersFrames` is a parameter too, as is the call chain seen by
  `runtime.Callers`.
-/

namespace errorhandler

/-! ## Go runtime and library primitives -/

/-- Run-time panics the package can raise. -/
inductive Panic where
  | nilDereference
  deriving DecidableEq, Repr

/-- Values of the Go interface type `error`. The constructor `traced` is a
pointer to a `TracedError` with the four fields of that struct; `foreign` is a
value of any other error type. -/
inductive GoError where
  | nil
  | foreign (text : String) (unwrap : GoError)
  | traced (OriginalError : GoError) (UserMessage : String) (Payload : String)
      (StackTrace : List Nat)
  deriving DecidableEq, Repr

/-- The struct `TracedError` (lines 14-19). -/
structure TracedError where
  OriginalError : GoError
  UserMessage : String
  Payload : String
  StackTrace : List Nat
  deriving DecidableEq, Repr

/-- The conversion of `&TracedError{...}` to the interface type `error`. -/
def TracedError.toError (te : TracedError) : GoError :=
  .traced te.OriginalError te.UserMessage te.Payload te.StackTrace

/-- The type assertion `err.(*TracedError)`: the error is itself a Traced Error. -/
def GoError.asTracedError : GoError → Option TracedError
  | .traced o m p s => some ⟨o, m, p, s⟩
  | _ => none

/-- The library function `errors.As(err, &target)` for a target of type
`*TracedError`: the first Traced Error on the `Unwrap` chain of `err`. -/
def errorsAs : GoError → Option TracedError
  | .nil => none
  | .traced o m p s => some ⟨o, m, p, s⟩
  | .foreign _ u => errorsAs u

/-- The library function `errors.Unwrap`; `*TracedError` has no `Unwrap` method. -/
def errorsUnwrap : GoError → GoError
  | .foreign _ u => u
  | _ => .nil

/-- The loop of `errors.Is`: compare, then follow `Unwrap`. -/
def errorsIsLoop (target : GoError) : GoError → Bool
  | .nil => false
  | .traced o m p s => decide (GoError.traced o m p s = target)
  | .foreign t u =>
    decide (GoError.foreign t u = target) ||
      (if u = .nil then false else errorsIsLoop target u)

/-- The library function `errors.Is`. -/
def errorsIs (err target : GoError) : Bool :=
  if err = .nil ∨ target = .nil then decide (err = target)
  else errorsIsLoop target err

/-- The library function `strings.Contains`. -/
def stringsContains (s substr : String) : Bool :=
  decide (substr.data <:+: s.data)

/-- A resolved stack frame (`runtime.Frame`), with the fields the package reads. -/
structure Frame where
  Function : String
  File : String
  Line : Int
  deriving DecidableEq, Repr

/-- The method `(*runtime.Frames).Next` on the frames still to be returned: the
next frame, whether a further call will return a valid frame, and the rest.
With no frame left it returns the zero `Frame` and `false`. -/
def Frames.Next : List Frame → Frame × Bool × List Frame
  | [] => (⟨"", "", 0⟩, false, [])
  | f :: rest => (f, !rest.isEmpty, rest)

/-- The library function `runtime.Callers(skip, pc)` for a buffer of `cap`
entries: `stack` is the call chain innermost first, its element 0 being the
frame of `runtime.Callers` itself. -/
def runtimeCallers (skip cap : Nat) (stack : List Nat) : List Nat :=
  (stack.drop skip).take cap

/-- The colour constants used by the package. -/
structure Palette where
  Reset : String
  Red : String
  BrightRed : String
  BrightYellow : String
  BrightWhite : String
  BrightCyan : String
  Cyan : String
  BrightBlue : String
  White : String
  deriving DecidableEq, Repr

/-! ## The package -/

/-- The method `Error()` of an `error` value (lines 22-24 when it is a Traced
Error, the stored text for another type); calling it on the nil interface
panics. -/
def GoError.Error : GoError → Except Panic String
  | .nil => .error .nilDereference
  | .foreign text _ => .ok text
  | .traced o msg _ _ =>
    match GoError.Error o with
    | .error e => .error e
    | .ok s => .ok (s ++ "\nUser Message: " ++ msg)

/-- The method `(*TracedError).Error` (lines 22-24). -/
def TracedError.Error (te : TracedError) : Except Panic String :=
  match te.OriginalError.Error with
  | .error e => .error e
  | .ok s => .ok (s ++ "\nUser Message: " ++ te.UserMessage)

/-- The constant `stackDepth` of `captureCallers`. -/
def stackDepth : Nat := 64

/-- The function `captureCallers` (lines 42-47). -/
def captureCallers (stack : List Nat) : List Nat :=
  runtimeCallers 3 stackDepth stack

/-- The function `formatWithColor` (lines 49-54). -/
def formatWithColor (c : Palette) (EnableColors : Bool) (color text : String) : String :=
  if EnableColors then color ++ text ++ c.Reset else text

/-- The two lines written for one frame (lines 106-114). -/
def frameLines (c : Palette) (EnableColors : Bool) (frame : Frame) : String :=
  (formatWithColor c EnableColors c.BrightBlue frame.Function ++ "\n") ++
    ("\t" ++ formatWithColor c EnableColors c.White frame.File ++ ":" ++
      toString frame.Line ++ "\n")

set_option linter.unusedVariables false in
/-- The frame loop of `formatError` (lines 94-115), writing to the builder `sb`. -/
def framesLoop (c : Palette) (EnableColors : Bool) (sb : String) (frames : List Frame) :
    String :=
  match h : Frames.Next frames with
  | (frame, more, rest) =>
    if !more then sb
    else if stringsContains frame.Function "runtime." then
      framesLoop c EnableColors sb rest
    else
      framesLoop c EnableColors (sb ++ frameLines c EnableColors frame) rest
termination_by frames.length
decreasing_by
  all_goals
    cases frames with
    | nil => simp [Frames.Next] at h; simp_all
    | cons a t => simp [Frames.Next] at h; obtain ⟨-, -, rfl⟩ := h; simp

/-- The part of `formatError` before the frame loop (lines 59-91), given the
text returned by `te.OriginalError.Error()`. -/
def formatHeader (c : Palette) (EnableColors : Bool) (te : TracedError) (text : String) :
    String :=
  let sb := ""
  let sb :=
    if te.Payload ≠ "" then
      sb ++ (formatWithColor c EnableColors c.BrightYellow "Payload" ++ ": " ++
        te.Payload ++ "\n")
    else sb
  let sb := sb ++ (formatWithColor c EnableColors c.BrightWhite "Error Details" ++ "\n")
  let sb := sb ++ (formatWithColor c EnableColors c.BrightRed "Error" ++ ": " ++
    formatWithColor c EnableColors c.Red text ++ "\n")
  let sb :=
    if te.UserMessage ≠ "" then
      sb ++ (formatWithColor c EnableColors c.BrightCyan "User Message" ++ ": " ++
        formatWithColor c EnableColors c.Cyan te.UserMessage ++ "\n")
    else sb
  sb ++ ("\n" ++ formatWithColor c EnableColors c.BrightWhite "Stack Trace" ++ "\n")

/-- The method `(*TracedError).formatError` (lines 58-118). -/
def TracedError.formatError (c : Palette) (CallersFrames : List Nat → List Frame)
    (EnableColors : Bool) (te : TracedError) : Except Panic String :=
  match te.OriginalError.Error with
  | .error e => .error e
  | .ok text =>
    .ok (framesLoop c EnableColors (formatHeader c EnableColors te text)
      (CallersFrames te.StackTrace))

/-- The function `FailOnError` (lines 28-39). -/
def FailOnError (c : Palette) (CallersFrames : List Nat → List Frame)
    (EnableColors : Bool) (err : GoError) : Except Panic String :=
  if err = .nil then .ok ""
  else
    match errorsAs err with
    | some tracedErr => tracedErr.formatError c CallersFrames EnableColors
    | none => err.Error

/-- The function `WrapError` (lines 121-152); `stack` is the call chain seen by
the `runtime.Callers` call made through `captureCallers`. -/
def WrapError (stack : List Nat) (err : GoError) (payload message : String) : GoError :=
  if err = .nil then .nil
  else
    match errorsAs err with
    | some existingTracedErr =>
      let payload := if payload = "" then existingTracedErr.Payload else payload
      let message :=
        if message ≠ "" ∧ existingTracedErr.UserMessage ≠ "" then
          existingTracedErr.UserMessage ++ "\n" ++ message
        else if message = "" then existingTracedErr.UserMessage
        else message
      TracedError.toError
        { OriginalError := existingTracedErr.OriginalError
          UserMessage := message
          Payload := payload
          StackTrace := captureCallers stack }
    | none =>
      TracedError.toError
        { OriginalError := err
          UserMessage := message
          Payload := payload
          StackTrace := captureCallers stack }

/-- The function `SetEnableColors` (lines 155-157) as a transformer of the
package variable `EnableColors`. -/
def SetEnableColors (enable : Bool) (_EnableColors : Bool) : Bool := enable

/-- The value the package variable `EnableColors` is declared with (line 11). -/
def EnableColors.initial : Bool := true

/-- Successive `WrapError` calls: each step gives the call chain of that call,
the payload and the message, and wraps the result of the step before. -/
def wrapAll (e : GoError) : List (List Nat × String × String) → GoError
  | [] => e
  | (stack, p, m) :: rest => wrapAll (WrapError stack e p m) rest

/-! ## Sample data for the closed statements -/

/-- Modelled from the spec: the colour constants, declared outside
`errorhandler.go`, with the SGR codes listed in section 6 of the spec (`Red` and
`Reset` are also fixed by `TestFormatWithColor`). -/
def ansi : Palette where
  Reset := "\x1b[0m"
  Red := "\x1b[31m"
  BrightRed := "\x1b[91m"
  BrightYellow := "\x1b[33m"
  BrightWhite := "\x1b[97m"
  BrightCyan := "\x1b[96m"
  Cyan := "\x1b[36m"
  BrightBlue := "\x1b[94m"
  White := "\x1b[37m"

/-- A sample symbol table: one frame per program counter. -/
def sampleFrame : Nat → Frame
  | 1 => ⟨"main.process", "/app/main.go", 21⟩
  | 2 => ⟨"main.main", "/app/main.go", 12⟩
  | 3 => ⟨"runtime.main", "/go/src/runtime/proc.go", 283⟩
  | 4 => ⟨"runtime.goexit", "/go/src/runtime/asm_amd64.s", 1700⟩
  | _ => ⟨"unknown", "?", 0⟩

/-- A sample `runtime.CallersFrames`: resolves every program counter by `sampleFrame`. -/
def sampleFrames (pcs : List Nat) : List Frame := pcs.map sampleFrame

/-- A sample call chain at the `runtime.Callers` call: the frames of
`runtime.Callers`, `captureCallers` and `WrapError` (program counters 90, 91,
92), then `main.process`, `main.main`, `runtime.main`, `runtime.goexit`. -/
def sampleStack : List Nat := [90, 91, 92, 1, 2, 3, 4]

/-- A sample call chain deeper than `stackDepth`: below the three frames of the
capture, `main.process` calling itself 65 times, then `main.main`,
`runtime.main`, `runtime.goexit`. -/
def deepStack : List Nat := [90, 91, 92] ++ List.replicate 65 1 ++ [2, 3, 4]

/-- A sample plain error, as made by `errors.New("base error")`. -/
def baseError : GoError := .foreign "base error" .nil

/-- A sample error of another type that wraps a Traced Error, as made by
`fmt.Errorf("ctx: %w", WrapError(errors.New("base error"), "p0", "m0"))`. -/
def wrappedTraced : GoError :=
  .foreign "ctx: base error\nUser Message: m0" (.traced baseError "m0" "p0" [1, 2, 3, 4])

/-! ## Auxiliary definitions -/

/-- The frames whose lines `formatError` writes: all but the last resolved
frame (the loop leaves when `Next` reports no further frame, before writing the
frame it was just given), without those whose function contains `runtime.`. -/
def renderedFrames (frames : List Frame) : List Frame :=
  frames.dropLast.filter (fun f => !stringsContains f.Function "runtime.")

/-- The concatenation of the lines of a list of frames. -/
def framesText (c : Palette) (en : Bool) : List Frame → String
  | [] => ""
  | f :: fs => frameLines c en f ++ framesText c en fs

/-- The invariant of the data model: the `OriginalError` of a Traced Error is
non-nil and is not itself a Traced Error. -/
def TracedError.Valid (t : TracedError) : Prop :=
  t.OriginalError ≠ GoError.nil ∧ t.OriginalError.asTracedError = none

/-- The escape character, byte `0x1B`. -/
def ESC : Char := Char.ofNat 27

/-- The text contains no ESC byte. -/
def noESC (s : String) : Prop := ESC ∉ s.data

instance (s : String) : Decidable (noESC s) :=
  inferInstanceAs (Decidable (ESC ∉ s.data))

/-- Length of the parameter part of an SGR sequence at the head of a text, its
final `m` included: digits and `;` up to the first `m`. -/
def sgrParamsLength : List Char → Option Nat
  | [] => none
  | c :: cs =>
    if c = 'm' then some 1
    else if c.isDigit = true ∨ c = ';' then (sgrParamsLength cs).map (· + 1)
    else none

/-- Length of the SGR sequence `ESC [ parameters m` at the head of a text, if
the text starts with one. -/
def sgrLength : List Char → Option Nat
  | e :: b :: cs =>
    if e = ESC ∧ b = '[' then (sgrParamsLength cs).map (· + 2) else none
  | _ => none

/-- Deleting every SGR sequence from a text, scanning from the left; the first
argument is the number of characters of a sequence still to be deleted. -/
def stripSGRFrom : Nat → List Char → List Char
  | _, [] => []
  | n + 1, _ :: cs => stripSGRFrom n cs
  | 0, c :: cs =>
    match sgrLength (c :: cs) with
    | some k => stripSGRFrom (k - 1) cs
    | none => c :: stripSGRFrom 0 cs

/-- Stated from the spec: the text with every ANSI SGR sequence (`ESC[<n>m`)
deleted. -/
def stripSGR (s : String) : String := ⟨stripSGRFrom 0 s.data⟩

/-- The text is exactly one SGR sequence. -/
def isSGR (s : String) : Bool := decide (sgrLength s.data = some s.data.length)

/-- Every colour constant, `Reset` included, is one SGR sequence. -/
def Palette.IsSGR (c : Palette) : Prop :=
  isSGR c.Reset = true ∧ isSGR c.Red = true ∧ isSGR c.BrightRed = true ∧
    isSGR c.BrightYellow = true ∧ isSGR c.BrightWhite = true ∧
    isSGR c.BrightCyan = true ∧ isSGR c.Cyan = true ∧ isSGR c.BrightBlue = true ∧
    isSGR c.White = true

instance (c : Palette) : Decidable c.IsSGR := by
  unfold Palette.IsSGR; infer_instance

/-- Deleting the SGR sequences of `a`, followed by any text, leaves `b` followed
by what is left of that text. -/
def Strips (a b : String) : Prop :=
  ∀ r : List Char, stripSGRFrom 0 (a.data ++ r) = b.data ++ stripSGRFrom 0 r

/-! ## General lemmas -/

theorem framesLoop_nil (c : Palette) (en : Bool) (sb : String) :
    framesLoop c en sb [] = sb := by
  rw [framesLoop]; simp [Frames.Next]

theorem framesLoop_single (c : Palette) (en : Bool) (sb : String) (f : Frame) :
    framesLoop c en sb [f] = sb := by
  rw [framesLoop]; simp [Frames.Next]

theorem framesLoop_cons_cons (c : Palette) (en : Bool) (sb : String) (f g : Frame)
    (rest : List Frame) :
    framesLoop c en sb (f :: g :: rest) =
      if stringsContains f.Function "runtime." then framesLoop c en sb (g :: rest)
      else framesLoop c en (sb ++ frameLines c en f) (g :: rest) := by
  rw [framesLoop]; simp [Frames.Next]

theorem renderedFrames_cons_cons (f g : Frame) (rest : List Frame) :
    renderedFrames (f :: g :: rest) =
      if stringsContains f.Function "runtime." then renderedFrames (g :: rest)
      else f :: renderedFrames (g :: rest) := by
  by_cases hf : stringsContains f.Function "runtime." = true <;>
    simp [renderedFrames, List.dropLast, List.filter, hf]

theorem framesLoop_eq (c : Palette) (en : Bool) (frames : List Frame) (sb : String) :
    framesLoop c en sb frames = sb ++ framesText c en (renderedFrames frames) := by
  induction frames generalizing sb with
  | nil => simp [framesLoop_nil, renderedFrames, framesText]
  | cons f t ih =>
    cases t with
    | nil => simp [framesLoop_single, renderedFrames, framesText]
    | cons g rest =>
      rw [framesLoop_cons_cons, renderedFrames_cons_cons]
      by_cases hf : stringsContains f.Function "runtime." = true
      · rw [if_pos hf, if_pos hf, ih]
      · rw [if_neg hf, if_neg hf, ih, framesText, String.append_assoc]

theorem errorsAs_toError (t : TracedError) : errorsAs t.toError = some t := by
  cases t; rfl

theorem toError_ne_nil (t : TracedError) : t.toError ≠ GoError.nil := by
  cases t; simp [TracedError.toError]

/-- A non-nil error with no Traced Error on its `Unwrap` chain is a value of
another error type. -/
theorem plain_is_foreign (e : GoError) (hnil : e ≠ GoError.nil) (hplain : errorsAs e = none) :
    ∃ text u, e = GoError.foreign text u := by
  cases e with
  | nil => exact absurd rfl hnil
  | foreign text u => exact ⟨text, u, rfl⟩
  | traced o m p s => simp [errorsAs] at hplain

theorem WrapError_of_plain (stack : List Nat) (err : GoError) (p m : String)
    (hnil : err ≠ GoError.nil) (hplain : errorsAs err = none) :
    WrapError stack err p m = GoError.traced err m p (captureCallers stack) := by
  simp [WrapError, hnil, hplain, TracedError.toError]

theorem WrapError_of_traced (stack : List Nat) (t : TracedError) (p m : String) :
    WrapError stack t.toError p m =
      GoError.traced t.OriginalError
        (if m ≠ "" ∧ t.UserMessage ≠ "" then t.UserMessage ++ "\n" ++ m
          else if m = "" then t.UserMessage else m)
        (if p = "" then t.Payload else p)
        (captureCallers stack) := by
  unfold WrapError
  rw [if_neg (toError_ne_nil t), errorsAs_toError]
  rfl

/-! ## Containment lemmas for `strings.Contains` -/

theorem stringsContains_mid (a sub b : String) :
    stringsContains (a ++ sub ++ b) sub = true := by
  simp only [stringsContains, String.data_append, decide_eq_true_eq]
  exact ⟨a.data, b.data, rfl⟩

theorem stringsContains_append_right (a b sub : String)
    (h : stringsContains a sub = true) : stringsContains (a ++ b) sub = true := by
  simp only [stringsContains, String.data_append, decide_eq_true_eq] at h ⊢
  obtain ⟨x, y, hxy⟩ := h
  exact ⟨x, y ++ b.data, by rw [← hxy]; simp [List.append_assoc]⟩

theorem stringsContains_append_left (a b sub : String)
    (h : stringsContains b sub = true) : stringsContains (a ++ b) sub = true := by
  simp only [stringsContains, String.data_append, decide_eq_true_eq] at h ⊢
  obtain ⟨x, y, hxy⟩ := h
  exact ⟨a.data ++ x, y, by rw [← hxy]; simp [List.append_assoc]⟩

theorem stringsContains_self (s : String) : stringsContains s s = true := by
  simp [stringsContains]

theorem formatWithColor_contains (c : Palette) (en : Bool) (color text : String) :
    stringsContains (formatWithColor c en color text) text = true := by
  cases en
  · simp [formatWithColor, stringsContains_self]
  · simp only [formatWithColor, if_true]
    exact stringsContains_mid color text c.Reset

/-- The header written by `formatError`, as one concatenation. -/
theorem formatHeader_eq (c : Palette) (en : Bool) (te : TracedError) (text : String) :
    formatHeader c en te text =
      (if te.Payload ≠ "" then
          formatWithColor c en c.BrightYellow "Payload" ++ ": " ++ te.Payload ++ "\n"
        else "") ++
      ((formatWithColor c en c.BrightWhite "Error Details" ++ "\n") ++
      ((formatWithColor c en c.BrightRed "Error" ++ ": " ++
          formatWithColor c en c.Red text ++ "\n") ++
      ((if te.UserMessage ≠ "" then
          formatWithColor c en c.BrightCyan "User Message" ++ ": " ++
            formatWithColor c en c.Cyan te.UserMessage ++ "\n"
        else "") ++
      ("\n" ++ formatWithColor c en c.BrightWhite "Stack Trace" ++ "\n")))) := by
  simp only [formatHeader]
  split_ifs <;> simp [String.append_assoc]

theorem formatHeader_contains_text (c : Palette) (en : Bool) (te : TracedError)
    (text : String) : stringsContains (formatHeader c en te text) text = true := by
  rw [formatHeader_eq]
  exact stringsContains_append_left _ _ _
    (stringsContains_append_left _ _ _
      (stringsContains_append_right _ _ _
        (stringsContains_append_right _ _ _
          (stringsContains_append_left _ _ _ (formatWithColor_contains c en c.Red text)))))

theorem formatHeader_contains_UserMessage (c : Palette) (en : Bool) (te : TracedError)
    (text : String) (hm : te.UserMessage ≠ "") :
    stringsContains (formatHeader c en te text) te.UserMessage = true := by
  rw [formatHeader_eq, if_pos hm]
  exact stringsContains_append_left _ _ _
    (stringsContains_append_left _ _ _
      (stringsContains_append_left _ _ _
        (stringsContains_append_right _ _ _
          (stringsContains_append_right _ _ _
            (stringsContains_append_left _ _ _
              (formatWithColor_contains c en c.Cyan te.UserMessage))))))

/-! ## Wrapping -/

/-- C1: for every payload `p` and message `m`, `WrapError(nil, p, m)` is `nil`;
no Traced Error is produced. -/
theorem WrapError_nil (stack : List Nat) (p m : String) :
    WrapError stack GoError.nil p m = GoError.nil := by
  simp [WrapError]

/-- C2, as stated, fails: `wrappedTraced` is non-nil and is not itself a Traced
Error (it is a value of another type whose `Unwrap` returns one), yet
`WrapError(wrappedTraced, "p", "m")` merges into the Traced Error found by
`errors.As`: the result has the inner `OriginalError` and the joined message
`"m0\nm"`, not `wrappedTraced` and `"m"`. -/
theorem WrapError_wrapper_of_traced_counterexample :
    wrappedTraced ≠ GoError.nil ∧ wrappedTraced.asTracedError = none ∧
      WrapError sampleStack wrappedTraced "p" "m" =
        GoError.traced baseError "m0\nm" "p" [1, 2, 3, 4] ∧
      ¬ ∃ te, (WrapError sampleStack wrappedTraced "p" "m").asTracedError = some te ∧
          te.OriginalError = wrappedTraced ∧ te.Payload = "p" ∧ te.UserMessage = "m" := by
  refine ⟨by decide, by decide, by decide, ?_⟩
  rintro ⟨te, h, ho, -, -⟩
  have h2 : WrapError sampleStack wrappedTraced "p" "m" =
      GoError.traced baseError "m0\nm" "p" [1, 2, 3, 4] := by decide
  rw [h2] at h
  simp only [GoError.asTracedError, Option.some.injEq] at h
  subst h
  revert ho
  decide

/-- C2, amended: for every non-nil error `err` on whose `Unwrap` chain
`errors.As` finds no Traced Error, `WrapError(err, p, m)` is a Traced Error whose
`OriginalError` is `err` itself, whose `Payload` is `p` and whose `UserMessage`
is `m` (with the stack captured at the call). -/
theorem WrapError_plain (stack : List Nat) (err : GoError) (p m : String)
    (hnil : err ≠ GoError.nil) (hplain : errorsAs err = none) :
    (WrapError stack err p m).asTracedError =
      some { OriginalError := err, UserMessage := m, Payload := p,
             StackTrace := captureCallers stack } := by
  rw [WrapError_of_plain stack err p m hnil hplain]
  rfl

/-- Witness of `WrapError_plain` on the input of `TestWrapError`. -/
theorem WrapError_plain_witness :
    baseError ≠ GoError.nil ∧ errorsAs baseError = none ∧
      (WrapError sampleStack baseError "payload" "additional message").asTracedError =
        some { OriginalError := baseError, UserMessage := "additional message",
               Payload := "payload", StackTrace := captureCallers sampleStack } :=
  ⟨by decide, by decide,
    WrapError_plain sampleStack baseError "payload" "additional message"
      (by decide) (by decide)⟩

/-- C3: re-wrapping does not nest. For every non-nil plain error `e` (no Traced
Error on its chain), the `OriginalError` of `WrapError(WrapError(e, p1, m1), p2, m2)`
equals the `OriginalError` of `WrapError(e, p1, m1)`, which is `e` itself. -/
theorem WrapError_rewrap_OriginalError (s1 s2 : List Nat) (e : GoError)
    (p1 m1 p2 m2 : String) (hnil : e ≠ GoError.nil) (hplain : errorsAs e = none) :
    ∃ t1 t2, (WrapError s1 e p1 m1).asTracedError = some t1 ∧
      (WrapError s2 (WrapError s1 e p1 m1) p2 m2).asTracedError = some t2 ∧
      t2.OriginalError = t1.OriginalError ∧ t1.OriginalError = e := by
  rw [WrapError_of_plain s1 e p1 m1 hnil hplain]
  have h := WrapError_of_traced s2 ⟨e, m1, p1, captureCallers s1⟩ p2 m2
  simp only [TracedError.toError] at h
  rw [h]
  exact ⟨_, _, rfl, rfl, rfl, rfl⟩

/-- Witness of `WrapError_rewrap_OriginalError` on the input of
`TestWrapErrorWithExistingTracedError`. -/
theorem WrapError_rewrap_OriginalError_witness :
    baseError ≠ GoError.nil ∧ errorsAs baseError = none ∧
      ∃ t1 t2, (WrapError sampleStack baseError "payload" "message").asTracedError = some t1 ∧
        (WrapError [90, 91, 92, 2, 3, 4]
          (WrapError sampleStack baseError "payload" "message")
          "new payload" "new message").asTracedError = some t2 ∧
        t2.OriginalError = t1.OriginalError ∧ t1.OriginalError = baseError :=
  ⟨by decide, by decide,
    WrapError_rewrap_OriginalError sampleStack [90, 91, 92, 2, 3, 4] baseError
      "payload" "message" "new payload" "new message" (by decide) (by decide)⟩

/-- C4: message merge rule. For every Traced Error `t` with `UserMessage` `old`
and every new message `m`, the `UserMessage` of `WrapError(t, p, m)` is
`old ++ "\n" ++ m` when both are non-empty, is whichever of the two is non-empty
when exactly one is, and is empty when both are empty. -/
theorem WrapError_merge_UserMessage (stack : List Nat) (t : TracedError) (p m : String) :
    ∃ r, (WrapError stack t.toError p m).asTracedError = some r ∧
      (t.UserMessage ≠ "" ∧ m ≠ "" → r.UserMessage = t.UserMessage ++ "\n" ++ m) ∧
      (t.UserMessage ≠ "" ∧ m = "" → r.UserMessage = t.UserMessage) ∧
      (t.UserMessage = "" ∧ m ≠ "" → r.UserMessage = m) ∧
      (t.UserMessage = "" ∧ m = "" → r.UserMessage = "") := by
  rw [WrapError_of_traced]
  refine ⟨_, rfl, ?_, ?_, ?_, ?_⟩
  · rintro ⟨h1, h2⟩; simp [h1, h2]
  · rintro ⟨-, h2⟩; simp [h2]
  · rintro ⟨h1, h2⟩; simp [h1, h2]
  · rintro ⟨h1, h2⟩; simp [h1, h2]

/-- Witness of `WrapError_merge_UserMessage` on the input of
`TestWrapErrorWithExistingTracedError`: the merged message is `"message\nnew message"`. -/
theorem WrapError_merge_UserMessage_witness :
    ∃ r, (WrapError sampleStack
        (TracedError.toError ⟨baseError, "message", "payload", [1, 2, 3, 4]⟩)
        "new payload" "new message").asTracedError = some r ∧
      r.UserMessage = "message\nnew message" := by
  obtain ⟨r, h, h1, -, -, -⟩ := WrapError_merge_UserMessage sampleStack
    ⟨baseError, "message", "payload", [1, 2, 3, 4]⟩ "new payload" "new message"
  exact ⟨r, h, h1 ⟨by decide, by decide⟩⟩

/-- C5: payload merge rule. For every Traced Error `t` with `Payload` `old` and
every new payload `p`, the `Payload` of `WrapError(t, p, m)` is `p` when `p` is
non-empty and is `old` when `p` is empty. -/
theorem WrapError_merge_Payload (stack : List Nat) (t : TracedError) (p m : String) :
    ∃ r, (WrapError stack t.toError p m).asTracedError = some r ∧
      (p ≠ "" → r.Payload = p) ∧ (p = "" → r.Payload = t.Payload) := by
  rw [WrapError_of_traced]
  refine ⟨_, rfl, ?_, ?_⟩
  · intro h; simp [h]
  · intro h; simp [h]

/-- Witness of `WrapError_merge_Payload`: an empty new payload keeps `"payload"`. -/
theorem WrapError_merge_Payload_witness :
    ∃ r, (WrapError sampleStack
        (TracedError.toError ⟨baseError, "message", "payload", [1, 2, 3, 4]⟩)
        "" "new message").asTracedError = some r ∧
      r.Payload = "payload" := by
  obtain ⟨r, h, -, h2⟩ := WrapError_merge_Payload sampleStack
    ⟨baseError, "message", "payload", [1, 2, 3, 4]⟩ "" "new message"
  exact ⟨r, h, h2 rfl⟩

/-- C6, as stated, fails: `baseError` is a non-nil plain error, yet the chain of
`WrapError(baseError, "payload", "message")` ends at the Traced Error itself:
`*TracedError` has no `Unwrap` method, so `errors.Unwrap` gives `nil` and
`errors.Is(WrapError(baseError, ..), baseError)` is `false`. -/
theorem errorsIs_WrapError_counterexample :
    baseError ≠ GoError.nil ∧ errorsAs baseError = none ∧
      errorsUnwrap (WrapError sampleStack baseError "payload" "message") = GoError.nil ∧
      errorsIs (WrapError sampleStack baseError "payload" "message") baseError = false := by
  decide

/-- C6, amended: the original error is never discarded and stays retrievable
through the `OriginalError` field. For every non-nil plain error `e`,
`errors.As` on `WrapError(e, p, m)` finds a Traced Error whose `OriginalError` is
`e` itself; the standard unwrap walk does not reach `e`, since `*TracedError` has
no `Unwrap` method: `errors.Unwrap(WrapError(e, p, m))` is `nil` and
`errors.Is(WrapError(e, p, m), e)` is `false`. -/
theorem WrapError_OriginalError_retrievable (stack : List Nat) (e : GoError) (p m : String)
    (hnil : e ≠ GoError.nil) (hplain : errorsAs e = none) :
    (∃ t, errorsAs (WrapError stack e p m) = some t ∧ t.OriginalError = e) ∧
      errorsUnwrap (WrapError stack e p m) = GoError.nil ∧
      errorsIs (WrapError stack e p m) e = false := by
  rw [WrapError_of_plain stack e p m hnil hplain]
  refine ⟨⟨_, rfl, rfl⟩, rfl, ?_⟩
  obtain ⟨text, u, rfl⟩ := plain_is_foreign e hnil hplain
  simp [errorsIs, errorsIsLoop]

/-- Witness of `WrapError_OriginalError_retrievable` at `errors.New("base error")`. -/
theorem WrapError_OriginalError_retrievable_witness :
    baseError ≠ GoError.nil ∧ errorsAs baseError = none ∧
      (∃ t, errorsAs (WrapError sampleStack baseError "p" "m") = some t ∧
        t.OriginalError = baseError) ∧
      errorsUnwrap (WrapError sampleStack baseError "p" "m") = GoError.nil ∧
      errorsIs (WrapError sampleStack baseError "p" "m") baseError = false :=
  ⟨by decide, by decide,
    WrapError_OriginalError_retrievable sampleStack baseError "p" "m" (by decide) (by decide)⟩

/-! ## Reporting -/

/-- C7, as stated, fails: `wrappedTraced` is non-nil and not itself a Traced
Error, its `Error()` text is `"ctx: base error\nUser Message: m0"`, yet
`FailOnError` renders the Traced Error that `errors.As` finds on its chain. -/
theorem FailOnError_wrapper_of_traced_counterexample :
    wrappedTraced ≠ GoError.nil ∧ wrappedTraced.asTracedError = none ∧
      wrappedTraced.Error = Except.ok "ctx: base error\nUser Message: m0" ∧
      FailOnError ansi sampleFrames false wrappedTraced =
        Except.ok ("Payload: p0\nError Details\nError: base error\nUser Message: m0\n" ++
          "\nStack Trace\nmain.process\n\t/app/main.go:21\nmain.main\n\t/app/main.go:12\n") ∧
      FailOnError ansi sampleFrames false wrappedTraced ≠ wrappedTraced.Error := by
  have h : FailOnError ansi sampleFrames false wrappedTraced =
      Except.ok ("Payload: p0\nError Details\nError: base error\nUser Message: m0\n" ++
        "\nStack Trace\nmain.process\n\t/app/main.go:21\nmain.main\n\t/app/main.go:12\n") := by
    simp [FailOnError, wrappedTraced, errorsAs, TracedError.formatError, baseError,
      GoError.Error, framesLoop_eq, sampleFrames, sampleFrame, renderedFrames]
    decide
  have he : wrappedTraced.Error = Except.ok "ctx: base error\nUser Message: m0" := rfl
  refine ⟨by decide, by decide, he, h, ?_⟩
  rw [h, he]
  intro hc
  exact absurd (Except.ok.inj hc) (by decide)

/-- C7, amended: `FailOnError(nil)` is the empty string, and for every non-nil
error `err` on whose `Unwrap` chain `errors.As` finds no Traced Error,
`FailOnError(err)` is exactly `err.Error()`. -/
theorem FailOnError_plain (c : Palette) (CallersFrames : List Nat → List Frame)
    (en : Bool) (err : GoError) (hnil : err ≠ GoError.nil) (hplain : errorsAs err = none) :
    FailOnError c CallersFrames en GoError.nil = Except.ok "" ∧
      ∃ text, err.Error = Except.ok text ∧
        FailOnError c CallersFrames en err = Except.ok text := by
  obtain ⟨text, u, rfl⟩ := plain_is_foreign err hnil hplain
  refine ⟨by simp [FailOnError], text, rfl, ?_⟩
  simp [FailOnError, hplain, GoError.Error]

/-- Witness of `FailOnError_plain` on the input of `TestFailOnError`. -/
theorem FailOnError_plain_witness :
    GoError.foreign "simple error" GoError.nil ≠ GoError.nil ∧
      errorsAs (GoError.foreign "simple error" GoError.nil) = none ∧
      FailOnError ansi sampleFrames true GoError.nil = Except.ok "" ∧
      ∃ text, (GoError.foreign "simple error" GoError.nil).Error = Except.ok text ∧
        FailOnError ansi sampleFrames true (GoError.foreign "simple error" GoError.nil) =
          Except.ok text :=
  ⟨by decide, by decide,
    FailOnError_plain ansi sampleFrames true (GoError.foreign "simple error" GoError.nil)
      (by decide) (by decide)⟩

/-- C8: for every non-nil plain error `e` (no Traced Error on its chain) and all
strings `p`, `m`, under either value of the colour flag,
`FailOnError(WrapError(e, p, m))` returns a string that contains `e.Error()` as a
contiguous substring and, when `m` is non-empty, contains `m` as a contiguous
substring. -/
theorem FailOnError_WrapError_contains (c : Palette) (CallersFrames : List Nat → List Frame)
    (en : Bool) (stack : List Nat) (e : GoError) (p m : String)
    (hnil : e ≠ GoError.nil) (hplain : errorsAs e = none) :
    ∃ text out, e.Error = Except.ok text ∧
      FailOnError c CallersFrames en (WrapError stack e p m) = Except.ok out ∧
      stringsContains out text = true ∧ (m ≠ "" → stringsContains out m = true) := by
  obtain ⟨text, u, rfl⟩ := plain_is_foreign e hnil hplain
  rw [WrapError_of_plain stack _ p m hnil hplain]
  refine ⟨text, formatHeader c en ⟨GoError.foreign text u, m, p, captureCallers stack⟩ text ++
    framesText c en (renderedFrames (CallersFrames (captureCallers stack))), rfl, ?_, ?_, ?_⟩
  · simp only [FailOnError, errorsAs, TracedError.formatError, GoError.Error, framesLoop_eq]
    rw [if_neg (by simp)]
  · exact stringsContains_append_right _ _ _ (formatHeader_contains_text _ _ _ _)
  · intro hm
    exact stringsContains_append_right _ _ _
      (formatHeader_contains_UserMessage c en ⟨_, m, p, _⟩ text hm)

/-- Witness of `FailOnError_WrapError_contains` on the input of `TestFailOnError`. -/
theorem FailOnError_WrapError_contains_witness :
    GoError.foreign "simple error" GoError.nil ≠ GoError.nil ∧
      errorsAs (GoError.foreign "simple error" GoError.nil) = none ∧
      ∃ text out, (GoError.foreign "simple error" GoError.nil).Error = Except.ok text ∧
        FailOnError ansi sampleFrames true
          (WrapError sampleStack (GoError.foreign "simple error" GoError.nil)
            "test payload" "test message") = Except.ok out ∧
        stringsContains out text = true ∧
        ("test message" ≠ "" → stringsContains out "test message" = true) :=
  ⟨by decide, by decide,
    FailOnError_WrapError_contains ansi sampleFrames true sampleStack
      (GoError.foreign "simple error" GoError.nil) "test payload" "test message"
      (by decide) (by decide)⟩

/-! ## Rendering -/

theorem formatWithColor_disabled (c : Palette) (color text : String) :
    formatWithColor c false color text = text := by
  simp [formatWithColor]

theorem renderedFrames_sublist (frames : List Frame) :
    List.Sublist (renderedFrames frames) frames :=
  (List.filter_sublist _).trans (List.dropLast_sublist frames)

theorem framesText_disabled (c : Palette) (frames : List Frame) :
    framesText c false frames =
      List.foldr (fun f acc =>
        (f.Function ++ "\n") ++ ("\t" ++ f.File ++ ":" ++ toString f.Line ++ "\n") ++ acc)
        "" frames := by
  induction frames with
  | nil => rfl
  | cons f fs ih => simp [framesText, frameLines, formatWithColor_disabled, ih]

/-- C9: render layout with colour disabled. For every Traced Error `t`, whenever
`t.OriginalError.Error()` returns a text, the output of `formatError` is exactly
the `Payload: ` line (present if and only if `t.Payload` is non-empty),
`Error Details`, the `Error: ` line with that text, the `User Message: ` line
(present if and only if `t.UserMessage` is non-empty), a blank line and
`Stack Trace`, in that order, followed only by the two lines of each frame of a
sublist `kept` of the resolved frames; when reading the text panics, so does
`formatError`. -/
theorem formatError_layout_disabled (c : Palette) (CallersFrames : List Nat → List Frame)
    (t : TracedError) :
    ∃ kept, List.Sublist kept (CallersFrames t.StackTrace) ∧
      t.formatError c CallersFrames false =
        match t.OriginalError.Error with
        | .error e => .error e
        | .ok text =>
          .ok ((if t.Payload ≠ "" then "Payload: " ++ t.Payload ++ "\n" else "") ++
            ("Error Details\n" ++
            (("Error: " ++ text ++ "\n") ++
            ((if t.UserMessage ≠ "" then "User Message: " ++ t.UserMessage ++ "\n" else "") ++
            ("\nStack Trace\n" ++
            List.foldr (fun f acc =>
              (f.Function ++ "\n") ++ ("\t" ++ f.File ++ ":" ++ toString f.Line ++ "\n") ++ acc)
              "" kept))))) := by
  refine ⟨renderedFrames (CallersFrames t.StackTrace), renderedFrames_sublist _, ?_⟩
  unfold TracedError.formatError
  cases t.OriginalError.Error with
  | error e => rfl
  | ok text =>
    have h1 : ∀ x : String, "Payload" ++ (": " ++ x) = "Payload: " ++ x := fun x => by
      rw [← String.append_assoc]; rfl
    have h2 : ∀ x : String, "Error Details" ++ ("\n" ++ x) = "Error Details\n" ++ x :=
      fun x => by rw [← String.append_assoc]; rfl
    have h3 : ∀ x : String, "Error" ++ (": " ++ x) = "Error: " ++ x := fun x => by
      rw [← String.append_assoc]; rfl
    have h4 : ∀ x : String, "User Message" ++ (": " ++ x) = "User Message: " ++ x :=
      fun x => by rw [← String.append_assoc]; rfl
    have h5 : ∀ x : String, "\n" ++ ("Stack Trace" ++ ("\n" ++ x)) = "\nStack Trace\n" ++ x :=
      fun x => by rw [← String.append_assoc, ← String.append_assoc]; rfl
    simp only [framesLoop_eq, formatHeader_eq, formatWithColor_disabled, framesText_disabled,
      String.append_assoc, h1, h2, h3, h4, h5]

/-- C10 fails on the code. The stack `[1, 2]` resolves to the frames
`main.process`, `main.main`, neither of which contains `runtime.`, and
`formatError` writes the lines of `main.process` only: the loop leaves as soon
as `Next` reports that no further frame follows, before writing the frame that
call returned, so the last resolved frame is never rendered. The same happens
through `WrapError` on a call chain deeper than 64 frames: 64 frames of
`main.process` are captured and 63 are rendered. -/
theorem formatError_omits_last_frame :
    (sampleFrames [1, 2] =
        [⟨"main.process", "/app/main.go", 21⟩, ⟨"main.main", "/app/main.go", 12⟩] ∧
      stringsContains "main.process" "runtime." = false ∧
      stringsContains "main.main" "runtime." = false ∧
      TracedError.formatError ansi sampleFrames false
          { OriginalError := baseError, UserMessage := "", Payload := "",
            StackTrace := [1, 2] } =
        Except.ok
          "Error Details\nError: base error\n\nStack Trace\nmain.process\n\t/app/main.go:21\n") ∧
      (sampleFrames (captureCallers deepStack) =
        List.replicate 64 ⟨"main.process", "/app/main.go", 21⟩ ∧
      FailOnError ansi sampleFrames false (WrapError deepStack baseError "" "") =
        Except.ok ("Error Details\nError: base error\n\nStack Trace\n" ++
          framesText ansi false (List.replicate 63 ⟨"main.process", "/app/main.go", 21⟩))) := by
  have hcap : captureCallers deepStack = List.replicate 64 1 := by decide
  have hren : renderedFrames (sampleFrames (List.replicate 64 1)) =
      List.replicate 63 ⟨"main.process", "/app/main.go", 21⟩ := by decide
  refine ⟨⟨by decide, by decide, by decide, ?_⟩, by rw [hcap]; decide, ?_⟩
  · simp [TracedError.formatError, baseError, GoError.Error, framesLoop_eq, sampleFrames,
      sampleFrame, renderedFrames]
    decide
  · rw [WrapError_of_plain deepStack baseError "" "" (by decide) (by decide), hcap]
    simp only [FailOnError, errorsAs, TracedError.formatError, baseError, GoError.Error,
      framesLoop_eq, hren]
    rw [if_neg (by simp)]
    congr 1

/-- The output of `formatError` in terms of the header and the rendered frames. -/
theorem formatError_eq (c : Palette) (CallersFrames : List Nat → List Frame) (en : Bool)
    (t : TracedError) :
    t.formatError c CallersFrames en =
      match t.OriginalError.Error with
      | .error e => .error e
      | .ok text =>
        .ok (formatHeader c en t text ++
          framesText c en (renderedFrames (CallersFrames t.StackTrace))) := by
  unfold TracedError.formatError
  cases t.OriginalError.Error with
  | error e => rfl
  | ok text => simp only [framesLoop_eq]

theorem renderedFrames_not_runtime (frames : List Frame) :
    ∀ f ∈ renderedFrames frames, stringsContains f.Function "runtime." = false := by
  intro f hf
  simp only [renderedFrames, List.mem_filter] at hf
  simpa using hf.2

/-- C11: runtime frames are never rendered. For every Traced Error `t`, under
either value of the colour flag, the frame part of the output of `formatError`
consists of the lines of a subsequence `kept` of the resolved frames, and no
frame of `kept` has a function name containing `runtime.`: a frame whose
function name contains `runtime.` gets neither a function-name line nor a
location line. -/
theorem formatError_no_runtime_frames (c : Palette) (CallersFrames : List Nat → List Frame)
    (en : Bool) (t : TracedError) :
    ∃ kept, List.Sublist kept (CallersFrames t.StackTrace) ∧
      (∀ f ∈ kept, stringsContains f.Function "runtime." = false) ∧
      t.formatError c CallersFrames en =
        match t.OriginalError.Error with
        | .error e => .error e
        | .ok text =>
          .ok (formatHeader c en t text ++
            List.foldr (fun f acc => frameLines c en f ++ acc) "" kept) := by
  refine ⟨renderedFrames (CallersFrames t.StackTrace), renderedFrames_sublist _,
    renderedFrames_not_runtime _, ?_⟩
  rw [formatError_eq]
  have h : ∀ fs : List Frame,
      framesText c en fs = List.foldr (fun f acc => frameLines c en f ++ acc) "" fs := by
    intro fs
    induction fs with
    | nil => rfl
    | cons f fs ih => simp [framesText, ih]
  rw [h]

/-! ## The colour flag -/

/-- C15: the colour flag follows its setter and drives `formatWithColor`. The
flag is initially enabled; after `SetEnableColors(b)` it equals `b` whatever it
was before; `formatWithColor(c, s)` is `c ++ s ++ Reset` when the flag is enabled
and exactly `s` when it is disabled; with the constants of the spec,
`formatWithColor(Red, "test")` is `ESC[31m`, `test`, `ESC[0m` with no spaces
after `SetEnableColors(true)` and `test` after `SetEnableColors(false)`. -/
theorem SetEnableColors_formatWithColor :
    EnableColors.initial = true ∧
      (∀ b previous : Bool, SetEnableColors b previous = b) ∧
      (∀ (c : Palette) (color s : String) (previous : Bool),
        formatWithColor c (SetEnableColors true previous) color s = color ++ s ++ c.Reset) ∧
      (∀ (c : Palette) (color s : String) (previous : Bool),
        formatWithColor c (SetEnableColors false previous) color s = s) ∧
      formatWithColor ansi (SetEnableColors true EnableColors.initial) ansi.Red "test" =
        "\x1b[31mtest\x1b[0m" ∧
      formatWithColor ansi
        (SetEnableColors false (SetEnableColors true EnableColors.initial)) ansi.Red "test" =
        "test" := by
  refine ⟨rfl, fun _ _ => rfl, fun _ _ _ _ => ?_, fun _ _ _ _ => ?_, by decide, by decide⟩
  · simp [SetEnableColors, formatWithColor]
  · simp [SetEnableColors, formatWithColor]

/-! ## The `Error` method -/

/-- C20: for every Traced Error `t`, `t.Error()` is exactly the text of
`t.OriginalError.Error()` followed by `"\nUser Message: "` and `t.UserMessage`
(it panics when the `OriginalError` is nil or its own `Error()` panics); the label
is present even when `UserMessage` is empty, and the result does not depend on
the `Payload` or on the `StackTrace`. -/
theorem TracedError_Error_eq (t : TracedError) :
    (t.Error =
        match t.OriginalError.Error with
        | .error e => .error e
        | .ok text => .ok (text ++ "\nUser Message: " ++ t.UserMessage)) ∧
      t.toError.Error = t.Error ∧
      (∀ text, t.OriginalError.Error = .ok text → t.UserMessage = "" →
        t.Error = .ok (text ++ "\nUser Message: ")) ∧
      (∀ (payload : String) (stack : List Nat),
        TracedError.Error { t with Payload := payload, StackTrace := stack } = t.Error) ∧
      (t.OriginalError = GoError.nil → t.Error = .error Panic.nilDereference) := by
  refine ⟨rfl, rfl, ?_, fun _ _ => rfl, ?_⟩
  · intro text h hm
    simp [TracedError.Error, h, hm]
  · intro h
    simp [TracedError.Error, h, GoError.Error]

/-! ## Stack capture -/

theorem WrapError_StackTrace (stack : List Nat) (err : GoError) (p m : String)
    (hnil : err ≠ GoError.nil) :
    ∃ r, (WrapError stack err p m).asTracedError = some r ∧
      r.StackTrace = captureCallers stack := by
  unfold WrapError
  rw [if_neg hnil]
  cases errorsAs err with
  | none => exact ⟨_, rfl, rfl⟩
  | some t => exact ⟨_, rfl, rfl⟩

/-- C18: stack capture bounds and order. When the call chain at a `WrapError`
call is, innermost first, the frames `a`, `b` of the capture mechanism
(`runtime.Callers`, `captureCallers`), the frame `w` of `WrapError` and then its
callers, the `StackTrace` stored by `WrapError` for a non-nil error is the list
of callers truncated to 64 entries: its length is at most 64, its element 0 is
the immediate caller of `WrapError`, and it is non-empty whenever `WrapError` has
a caller. -/
theorem WrapError_captures_callers (a b w : Nat) (callers : List Nat) (err : GoError)
    (p m : String) (hnil : err ≠ GoError.nil) :
    ∃ r, (WrapError (a :: b :: w :: callers) err p m).asTracedError = some r ∧
      r.StackTrace = callers.take 64 ∧
      r.StackTrace.length ≤ 64 ∧
      r.StackTrace.head? = callers.head? ∧
      (callers ≠ [] → r.StackTrace ≠ []) := by
  obtain ⟨r, h1, h2⟩ := WrapError_StackTrace (a :: b :: w :: callers) err p m hnil
  have h3 : r.StackTrace = callers.take 64 := by
    rw [h2]; simp [captureCallers, runtimeCallers, stackDepth]
  refine ⟨r, h1, h3, ?_, ?_, ?_⟩
  · rw [h3]; simp
  · rw [h3]; cases callers <;> simp
  · intro hc; rw [h3]; cases callers with
    | nil => exact absurd rfl hc
    | cons x xs => simp

/-- Witness of `WrapError_captures_callers` on the sample call chain. -/
theorem WrapError_captures_callers_witness :
    baseError ≠ GoError.nil ∧
      ∃ r, (WrapError (90 :: 91 :: 92 :: [1, 2, 3, 4]) baseError "" "").asTracedError =
          some r ∧
        r.StackTrace = [1, 2, 3, 4].take 64 ∧
        r.StackTrace.length ≤ 64 ∧
        r.StackTrace.head? = [1, 2, 3, 4].head? ∧
        (([1, 2, 3, 4] : List Nat) ≠ [] → r.StackTrace ≠ []) :=
  ⟨by decide, WrapError_captures_callers 90 91 92 [1, 2, 3, 4] baseError "" "" (by decide)⟩

/-! ## The invariant of wrap results -/

theorem asTracedError_of_plain (e : GoError) (hplain : errorsAs e = none) :
    e.asTracedError = none := by
  cases e with
  | nil => rfl
  | foreign t u => rfl
  | traced o m p s => simp [errorsAs] at hplain

theorem WrapError_valid_step (stack : List Nat) (err : GoError) (p m : String)
    (hnil : err ≠ GoError.nil) (hvalid : ∀ t, errorsAs err = some t → t.Valid) :
    ∃ r : TracedError, WrapError stack err p m = r.toError ∧ r.Valid ∧
      r.OriginalError = (match errorsAs err with
        | none => err
        | some t => t.OriginalError) := by
  unfold WrapError
  rw [if_neg hnil]
  cases h : errorsAs err with
  | none =>
    exact ⟨_, rfl, ⟨hnil, asTracedError_of_plain err h⟩, rfl⟩
  | some t =>
    exact ⟨_, rfl, hvalid t h, rfl⟩

theorem wrapAll_valid (steps : List (List Nat × String × String)) :
    ∀ (err : GoError), err ≠ GoError.nil → (∀ t, errorsAs err = some t → t.Valid) →
      steps ≠ [] → ∃ r : TracedError, wrapAll err steps = r.toError ∧ r.Valid ∧
        r.OriginalError = (match errorsAs err with
          | none => err
          | some t => t.OriginalError) := by
  induction steps with
  | nil => intro _ _ _ h; exact absurd rfl h
  | cons s rest ih =>
    intro err hnil hvalid _
    obtain ⟨stack, p, m⟩ := s
    obtain ⟨r, hr, hrv, hro⟩ := WrapError_valid_step stack err p m hnil hvalid
    cases rest with
    | nil => exact ⟨r, by simp [wrapAll, hr], hrv, hro⟩
    | cons s2 rest2 =>
      obtain ⟨r2, h2, h2v, h2o⟩ := ih (WrapError stack err p m)
        (by rw [hr]; exact toError_ne_nil r)
        (by
          intro t ht
          rw [hr, errorsAs_toError] at ht
          cases ht
          exact hrv)
        (by simp)
      refine ⟨r2, by simpa [wrapAll] using h2, h2v, ?_⟩
      rw [h2o, hr, errorsAs_toError]
      exact hro

/-- C16, as stated, fails: a Traced Error built directly with a nil
`OriginalError` is a non-nil error, and `WrapError` carries the nil
`OriginalError` over; one built with a Traced Error as `OriginalError` keeps a
Traced Error as the `OriginalError` of the result. -/
theorem WrapError_invalid_counterexample :
    GoError.traced GoError.nil "m" "p" [] ≠ GoError.nil ∧
      (WrapError sampleStack (GoError.traced GoError.nil "m" "p" []) "" "").asTracedError =
        some { OriginalError := GoError.nil, UserMessage := "m", Payload := "p",
               StackTrace := [1, 2, 3, 4] } ∧
      (WrapError sampleStack
          (GoError.traced (GoError.traced baseError "m0" "p0" []) "m" "p" []) "" ""
        ).asTracedError =
        some { OriginalError := GoError.traced baseError "m0" "p0" [], UserMessage := "m",
               Payload := "p", StackTrace := [1, 2, 3, 4] } ∧
      (GoError.traced baseError "m0" "p0" []).asTracedError ≠ none := by
  decide

/-- C16, amended: for every non-nil error `err` such that the Traced Error found
by `errors.As` on its chain, if any, has an `OriginalError` that is non-nil and
not itself a Traced Error, `WrapError(err, p, m)` is a Traced Error whose
`OriginalError` is non-nil and is not itself a Traced Error; the same holds after
any non-empty finite sequence of wraps starting from `err`, in particular from a
plain non-nil error, where the `OriginalError` stays that plain error. -/
theorem WrapError_preserves_Valid (err : GoError) (hnil : err ≠ GoError.nil)
    (hvalid : ∀ t, errorsAs err = some t → t.Valid) :
    (∀ (stack : List Nat) (p m : String),
        ∃ r, (WrapError stack err p m).asTracedError = some r ∧ r.Valid) ∧
      (∀ steps : List (List Nat × String × String), steps ≠ [] →
        ∃ r, (wrapAll err steps).asTracedError = some r ∧ r.Valid ∧
          (errorsAs err = none → r.OriginalError = err)) := by
  constructor
  · intro stack p m
    obtain ⟨r, hr, hrv, -⟩ := WrapError_valid_step stack err p m hnil hvalid
    exact ⟨r, by rw [hr]; rfl, hrv⟩
  · intro steps hne
    obtain ⟨r, hr, hrv, hro⟩ := wrapAll_valid steps err hnil hvalid hne
    refine ⟨r, by rw [hr]; rfl, hrv, ?_⟩
    intro hplain
    rw [hro, hplain]

/-- Witness of `WrapError_preserves_Valid` at `errors.New("base error")`. -/
theorem WrapError_preserves_Valid_witness :
    baseError ≠ GoError.nil ∧ (∀ t, errorsAs baseError = some t → t.Valid) ∧
      (∀ (stack : List Nat) (p m : String),
        ∃ r, (WrapError stack baseError p m).asTracedError = some r ∧ r.Valid) ∧
      (∀ steps : List (List Nat × String × String), steps ≠ [] →
        ∃ r, (wrapAll baseError steps).asTracedError = some r ∧ r.Valid ∧
          (errorsAs baseError = none → r.OriginalError = baseError)) :=
  ⟨by decide, fun t ht => by simp [baseError, errorsAs] at ht,
    WrapError_preserves_Valid baseError (by decide)
      (fun t ht => by simp [baseError, errorsAs] at ht)⟩

/-! ## Failure of the report -/

/-- C17, as stated, fails: for the Traced Error built directly as
`&TracedError{UserMessage: "m", Payload: "p"}`, whose `OriginalError` is nil,
`FailOnError` panics in the renderer, at the call `te.OriginalError.Error()`,
under either value of the colour flag; it returns no string. -/
theorem FailOnError_nil_OriginalError_counterexample :
    FailOnError ansi sampleFrames true (GoError.traced GoError.nil "m" "p" []) =
        Except.error Panic.nilDereference ∧
      FailOnError ansi sampleFrames false (GoError.traced GoError.nil "m" "p" []) =
        Except.error Panic.nilDereference ∧
      ¬ ∃ s, FailOnError ansi sampleFrames true (GoError.traced GoError.nil "m" "p" []) =
        Except.ok s := by
  have h : ∀ en, FailOnError ansi sampleFrames en (GoError.traced GoError.nil "m" "p" []) =
      Except.error Panic.nilDereference := by
    intro en
    simp [FailOnError, errorsAs, TracedError.formatError, GoError.Error]
  refine ⟨h true, h false, ?_⟩
  rintro ⟨s, hs⟩
  rw [h true] at hs
  cases hs

/-- C17, amended: `FailOnError` returns a string exactly when the error value
`err` is nil, is plain, or is such that the `OriginalError` of the Traced Error
found by `errors.As` on its chain has an `Error()` that returns (a non-nil error
of another type, or a Traced Error whose own `Error()` returns); then the
renderer's read of the text does not meet a nil `OriginalError`. For every
error whose Traced Error has a nil `OriginalError`, `FailOnError` panics at
`te.OriginalError.Error()`, under either value of the colour flag. -/
theorem FailOnError_returns (c : Palette) (CallersFrames : List Nat → List Frame)
    (en : Bool) (err : GoError) :
    ((∃ s, FailOnError c CallersFrames en err = Except.ok s) ↔
        ∀ t, errorsAs err = some t → ∃ text, t.OriginalError.Error = Except.ok text) ∧
      (∀ t, errorsAs err = some t → t.OriginalError = GoError.nil →
        FailOnError c CallersFrames en err = Except.error Panic.nilDereference) := by
  by_cases hnil : err = GoError.nil
  · subst hnil
    have hF : FailOnError c CallersFrames en GoError.nil = Except.ok "" := by
      simp [FailOnError]
    rw [hF]
    refine ⟨⟨fun _ t ht => ?_, fun _ => ⟨"", rfl⟩⟩, fun t ht _ => ?_⟩
    · simp [errorsAs] at ht
    · simp [errorsAs] at ht
  · cases h : errorsAs err with
    | none =>
      obtain ⟨text, u, rfl⟩ := plain_is_foreign err hnil h
      have hF : FailOnError c CallersFrames en (GoError.foreign text u) =
          Except.ok text := by
        simp [FailOnError, h, GoError.Error]
      rw [hF]
      refine ⟨⟨fun _ t ht => ?_, fun _ => ⟨text, rfl⟩⟩, fun t ht _ => ?_⟩
      · cases ht
      · cases ht
    | some t =>
      have hF : FailOnError c CallersFrames en err = t.formatError c CallersFrames en := by
        simp [FailOnError, hnil, h]
      rw [hF, formatError_eq]
      cases hE : t.OriginalError.Error with
      | error e =>
        cases e
        refine ⟨⟨fun hs => ?_, fun hr => ?_⟩, fun t2 ht2 _ => rfl⟩
        · obtain ⟨s, hs⟩ := hs
          cases hs
        · obtain ⟨text, ht⟩ := hr t rfl
          rw [hE] at ht
          cases ht
      | ok text =>
        refine ⟨⟨fun _ t2 ht2 => ?_, fun _ => ⟨_, rfl⟩⟩, fun t2 ht2 ho => ?_⟩
        · cases ht2
          exact ⟨text, hE⟩
        · cases ht2
          rw [ho] at hE
          cases hE

/-- Witness of `FailOnError_returns`: `FailOnError` returns a string on a result
of `WrapError` and on a Traced Error built directly whose `OriginalError` is a
Traced Error over `errors.New("base error")`. -/
theorem FailOnError_returns_witness :
    (∃ s, FailOnError ansi sampleFrames true (WrapError sampleStack baseError "p" "m") =
        Except.ok s) ∧
      (∃ s, FailOnError ansi sampleFrames true
        (GoError.traced (GoError.traced baseError "m0" "p0" [1, 2]) "m" "p" [1, 2, 3, 4]) =
        Except.ok s) :=
  ⟨(FailOnError_returns ansi sampleFrames true (WrapError sampleStack baseError "p" "m")).1.mpr
      (fun t ht => by
        rw [WrapError_of_plain sampleStack baseError "p" "m" (by decide) (by decide)] at ht
        simp only [errorsAs, Option.some.injEq] at ht
        subst ht
        exact ⟨"base error", rfl⟩),
    (FailOnError_returns ansi sampleFrames true
      (GoError.traced (GoError.traced baseError "m0" "p0" [1, 2]) "m" "p" [1, 2, 3, 4])).1.mpr
      (fun t ht => by
        simp only [errorsAs, Option.some.injEq] at ht
        subst ht
        exact ⟨"base error\nUser Message: m0", rfl⟩)⟩

/-! ## Accumulation over successive wraps -/

theorem append_newline_ne_empty (a m : String) : a ++ "\n" ++ m ≠ "" := by
  intro h
  have h2 := congrArg String.length h
  simp only [String.length_append] at h2
  have h3 : "\n".length = 1 := by decide
  have h4 : "".length = 0 := by decide
  omega

theorem foldl_message_of_ne (ms : List String) :
    ∀ acc : String, acc ≠ "" →
      ms.foldl (fun acc m =>
        if m ≠ "" ∧ acc ≠ "" then acc ++ "\n" ++ m else if m = "" then acc else m) acc =
      String.intercalate.go acc "\n" (ms.filter (fun m => decide (m ≠ ""))) := by
  induction ms with
  | nil => intro acc _; rfl
  | cons m ms ih =>
    intro acc hacc
    by_cases hm : m = ""
    · simp only [List.foldl_cons, hm, List.filter]
      simpa using ih acc hacc
    · simp only [List.foldl_cons]
      rw [if_pos ⟨hm, hacc⟩, ih _ (append_newline_ne_empty acc m)]
      simp [List.filter, hm, String.intercalate.go]

theorem foldl_message_empty (ms : List String) :
    ms.foldl (fun acc m =>
        if m ≠ "" ∧ acc ≠ "" then acc ++ "\n" ++ m else if m = "" then acc else m) "" =
      "\n".intercalate (ms.filter (fun m => decide (m ≠ ""))) := by
  induction ms with
  | nil => rfl
  | cons m ms ih =>
    by_cases hm : m = ""
    · simp only [List.foldl_cons, hm, List.filter]
      simpa using ih
    · simp only [List.foldl_cons]
      rw [if_neg (by simp), if_neg hm, foldl_message_of_ne ms m hm]
      simp [List.filter, hm, String.intercalate]

theorem foldl_payload (ps : List String) :
    ∀ acc : String,
      ps.foldl (fun acc p => if p = "" then acc else p) acc =
        ((ps.filter (fun p => decide (p ≠ ""))).getLast?).getD acc := by
  induction ps with
  | nil => intro acc; rfl
  | cons p ps ih =>
    intro acc
    by_cases hp : p = ""
    · simp only [List.foldl_cons, hp, List.filter]
      simpa using ih acc
    · simp only [List.foldl_cons]
      rw [if_neg hp, ih]
      simp [List.filter, hp, List.getLast?_cons]

theorem wrapAll_traced (steps : List (List Nat × String × String)) :
    ∀ (o : GoError) (msg pl : String) (st : List Nat),
      ∃ st2, wrapAll (GoError.traced o msg pl st) steps =
        GoError.traced o
          ((steps.map (fun s => s.2.2)).foldl (fun acc m =>
            if m ≠ "" ∧ acc ≠ "" then acc ++ "\n" ++ m else if m = "" then acc else m) msg)
          ((steps.map (fun s => s.2.1)).foldl (fun acc p => if p = "" then acc else p) pl)
          st2 := by
  induction steps with
  | nil => intro o msg pl st; exact ⟨st, rfl⟩
  | cons s rest ih =>
    intro o msg pl st
    obtain ⟨stack, p, m⟩ := s
    have h := WrapError_of_traced stack ⟨o, msg, pl, st⟩ p m
    simp only [TracedError.toError] at h
    simp only [wrapAll, h, List.map_cons, List.foldl_cons]
    exact ih _ _ _ _

/-- C19: accumulation over any number of wraps. For every non-nil plain error
`e` and every non-empty list of steps `(p1, m1) .. (pn, mn)` applied by
successive `WrapError` calls, the result is a Traced Error over `e` whose
`UserMessage` is the non-empty messages among `m1 .. mn` joined by `"\n"` in wrap
order (empty if all are empty), and whose `Payload` is the last non-empty payload
among `p1 .. pn` (empty if all are empty). -/
theorem wrapAll_accumulates (e : GoError) (steps : List (List Nat × String × String))
    (hnil : e ≠ GoError.nil) (hplain : errorsAs e = none) (hsteps : steps ≠ []) :
    ∃ r, (wrapAll e steps).asTracedError = some r ∧
      r.OriginalError = e ∧
      r.UserMessage =
        "\n".intercalate ((steps.map (fun s => s.2.2)).filter (fun m => decide (m ≠ ""))) ∧
      r.Payload =
        (((steps.map (fun s => s.2.1)).filter (fun p => decide (p ≠ ""))).getLast?).getD "" := by
  cases steps with
  | nil => exact absurd rfl hsteps
  | cons s rest =>
    obtain ⟨stack, p, m⟩ := s
    obtain ⟨st2, h⟩ := wrapAll_traced rest e m p (captureCallers stack)
    simp only [wrapAll, WrapError_of_plain stack e p m hnil hplain, h]
    refine ⟨_, rfl, rfl, ?_, ?_⟩
    · show List.foldl _ m _ = _
      by_cases hm : m = ""
      · subst hm
        rw [foldl_message_empty]
        simp [List.filter]
      · rw [foldl_message_of_ne _ m hm]
        simp [List.filter, hm, String.intercalate]
    · show List.foldl _ p _ = _
      rw [foldl_payload]
      by_cases hp : p = ""
      · subst hp
        simp [List.filter]
      · simp [List.filter, hp, List.getLast?_cons]

/-- Witness of `wrapAll_accumulates`: three wraps of `errors.New("base error")`,
the second with an empty message, the third with an empty payload. -/
theorem wrapAll_accumulates_witness :
    baseError ≠ GoError.nil ∧ errorsAs baseError = none ∧
      ∃ r, (wrapAll baseError
          [(sampleStack, "p1", "first"), (sampleStack, "p2", ""),
            (sampleStack, "", "third")]).asTracedError = some r ∧
        r.OriginalError = baseError ∧
        r.UserMessage = "first\nthird" ∧ r.Payload = "p2" := by
  obtain ⟨r, h1, h2, h3, h4⟩ := wrapAll_accumulates baseError
    [(sampleStack, "p1", "first"), (sampleStack, "p2", ""), (sampleStack, "", "third")]
    (by decide) (by decide) (by simp)
  refine ⟨by decide, by decide, r, h1, h2, ?_, ?_⟩
  · rw [h3]; decide
  · rw [h4]; decide

/-! ## Escape characters and SGR sequences -/

theorem noESC_append (a b : String) (ha : noESC a) (hb : noESC b) : noESC (a ++ b) := by
  simp only [noESC, String.data_append, List.mem_append, not_or] at *
  exact ⟨ha, hb⟩

theorem digitChar_ne_ESC (k : Nat) (hk : k < 10) : Nat.digitChar k ≠ ESC := by
  interval_cases k <;> decide

theorem toDigitsCore_ne_ESC (fuel : Nat) :
    ∀ (n : Nat) (ds : List Char), (∀ c ∈ ds, c ≠ ESC) →
      ∀ c ∈ Nat.toDigitsCore 10 fuel n ds, c ≠ ESC := by
  induction fuel with
  | zero => intro n ds hds; simpa [Nat.toDigitsCore] using hds
  | succ fuel ih =>
    intro n ds hds
    have hd : ∀ c ∈ Nat.digitChar (n % 10) :: ds, c ≠ ESC := by
      intro c hc
      rcases List.mem_cons.mp hc with h | h
      · rw [h]; exact digitChar_ne_ESC _ (Nat.mod_lt _ (by decide))
      · exact hds c h
    simp only [Nat.toDigitsCore]
    split
    · exact hd
    · exact ih _ _ hd

theorem noESC_natRepr (n : Nat) : noESC (Nat.repr n) := by
  intro h
  simp only [Nat.repr, Nat.toDigits, List.asString] at h
  exact toDigitsCore_ne_ESC _ _ [] (by simp) ESC h rfl

theorem noESC_toString_int (n : Int) : noESC (toString n) := by
  cases n with
  | ofNat m => exact noESC_natRepr m
  | negSucc m =>
    show noESC ("-" ++ Nat.repr (m + 1))
    exact noESC_append _ _ (by decide) (noESC_natRepr _)

theorem sgrParamsLength_append (xs r : List Char) :
    ∀ k, sgrParamsLength xs = some k → sgrParamsLength (xs ++ r) = some k := by
  induction xs with
  | nil => intro k h; simp [sgrParamsLength] at h
  | cons c cs ih =>
    intro k h
    simp only [sgrParamsLength, List.cons_append, List.append_eq] at h ⊢
    split_ifs at h ⊢ with h1 h2
    · exact h
    · cases hcs : sgrParamsLength cs with
      | none => rw [hcs] at h; simp at h
      | some j => rw [hcs] at h; rw [ih j hcs]; exact h

theorem sgrLength_append (xs r : List Char) (k : Nat) (h : sgrLength xs = some k) :
    sgrLength (xs ++ r) = some k := by
  match xs, h with
  | e :: b :: cs, h =>
    simp only [sgrLength, List.cons_append] at h ⊢
    split_ifs at h ⊢ with h1
    cases hcs : sgrParamsLength cs with
    | none => rw [hcs] at h; simp at h
    | some j => rw [hcs] at h; rw [sgrParamsLength_append cs r j hcs]; exact h

theorem stripSGRFrom_skip (xs r : List Char) :
    stripSGRFrom xs.length (xs ++ r) = stripSGRFrom 0 r := by
  induction xs with
  | nil => rfl
  | cons c cs ih => simpa [stripSGRFrom] using ih

theorem Strips_code (code : String) (h : isSGR code = true) : Strips code "" := by
  intro r
  simp only [isSGR, decide_eq_true_eq] at h
  cases hd : code.data with
  | nil => rw [hd] at h; simp [sgrLength] at h
  | cons c cs =>
    rw [hd] at h
    have h2 := sgrLength_append (c :: cs) r _ h
    simp only [List.cons_append] at h2 ⊢
    simp only [stripSGRFrom, h2, List.length_cons, Nat.add_sub_cancel]
    simpa using stripSGRFrom_skip cs r

theorem sgrLength_of_ne_ESC (c : Char) (cs : List Char) (h : c ≠ ESC) :
    sgrLength (c :: cs) = none := by
  cases cs with
  | nil => rfl
  | cons b cs => simp [sgrLength, h]

theorem Strips_text (t : String) (h : noESC t) : Strips t t := by
  intro r
  unfold noESC at h
  generalize t.data = xs at h
  induction xs with
  | nil => rfl
  | cons c cs ih =>
    have hc : c ≠ ESC := fun hc => h (by simp [hc])
    have hcs : ESC ∉ cs := fun hm => h (List.mem_cons_of_mem _ hm)
    simp only [List.cons_append, stripSGRFrom, sgrLength_of_ne_ESC c _ hc, List.append_eq]
    rw [ih hcs]

theorem Strips_append (a b a2 b2 : String) (h1 : Strips a b) (h2 : Strips a2 b2) :
    Strips (a ++ a2) (b ++ b2) := by
  intro r
  simp only [String.data_append, List.append_assoc]
  rw [h1, h2]

theorem Strips_formatWithColor (c : Palette) (color text : String)
    (hcolor : isSGR color = true) (hreset : isSGR c.Reset = true) (htext : noESC text) :
    Strips (formatWithColor c true color text) (formatWithColor c false color text) := by
  simp only [formatWithColor, if_true]
  have h := Strips_append _ _ _ _ (Strips_append _ _ _ _ (Strips_code color hcolor)
    (Strips_text text htext)) (Strips_code c.Reset hreset)
  simpa using h

theorem stripSGR_of_Strips (a b : String) (h : Strips a b) : stripSGR a = b := by
  have h2 := h []
  simp only [List.append_nil, stripSGRFrom] at h2
  simp [stripSGR, h2]

theorem red_reset_of_test (c : Palette)
    (h : formatWithColor c true c.Red "test" = "\x1b[31mtest\x1b[0m") :
    c.Red = "\x1b[31m" ∧ c.Reset = "\x1b[0m" := by
  simp only [formatWithColor, if_true] at h
  have hd := congrArg String.data h
  rw [String.data_append, String.data_append, List.append_assoc] at hd
  have hlen := congrArg List.length hd
  rw [List.length_append, List.length_append] at hlen
  have ht : "test".data.length = 4 := by decide
  have hL : "\x1b[31mtest\x1b[0m".data.length = 13 := by decide
  rw [ht, hL] at hlen
  have h1 : c.Red.data = "\x1b[31mtest\x1b[0m".data.take c.Red.data.length := by
    rw [← hd, List.take_left]
  have h2 : "test".data ++ c.Reset.data =
      "\x1b[31mtest\x1b[0m".data.drop c.Red.data.length := by
    rw [← hd, List.drop_left]
  have h3 : "test".data = ("\x1b[31mtest\x1b[0m".data.drop c.Red.data.length).take 4 := by
    rw [← h2, ← ht, List.take_left]
  have h4 : c.Reset.data = ("\x1b[31mtest\x1b[0m".data.drop c.Red.data.length).drop 4 := by
    rw [← h2, ← ht, List.drop_left]
  have hn : c.Red.data.length ≤ 9 := by omega
  generalize c.Red.data.length = n at h1 h3 h4 hn
  have h5 : n = 5 := by
    interval_cases n <;> first | rfl | (exfalso; revert h3; decide)
  subst h5
  exact ⟨String.ext (by rw [h1]; decide), String.ext (by rw [h4]; decide)⟩

theorem noESC_formatHeader_disabled (c : Palette) (t : TracedError) (text : String)
    (h1 : noESC t.Payload) (h2 : noESC t.UserMessage) (h3 : noESC text) :
    noESC (formatHeader c false t text) := by
  rw [formatHeader_eq]
  simp only [formatWithColor_disabled]
  refine noESC_append _ _ ?_ (noESC_append _ _ ?_ (noESC_append _ _ ?_
    (noESC_append _ _ ?_ ?_)))
  · split_ifs
    · exact noESC_append _ _ (noESC_append _ _ (noESC_append _ _ (by decide) (by decide)) h1)
        (by decide)
    · decide
  · decide
  · exact noESC_append _ _ (noESC_append _ _ (noESC_append _ _ (by decide) (by decide)) h3)
      (by decide)
  · split_ifs
    · exact noESC_append _ _ (noESC_append _ _ (noESC_append _ _ (by decide) (by decide)) h2)
        (by decide)
    · decide
  · decide

theorem noESC_frameLines_disabled (c : Palette) (f : Frame)
    (h1 : noESC f.Function) (h2 : noESC f.File) : noESC (frameLines c false f) := by
  simp only [frameLines, formatWithColor_disabled]
  exact noESC_append _ _ (noESC_append _ _ h1 (by decide))
    (noESC_append _ _ (noESC_append _ _ (noESC_append _ _ (noESC_append _ _ (by decide) h2)
      (by decide)) (noESC_toString_int _)) (by decide))

theorem noESC_framesText_disabled (c : Palette) (fs : List Frame)
    (h : ∀ f ∈ fs, noESC f.Function ∧ noESC f.File) : noESC (framesText c false fs) := by
  induction fs with
  | nil => exact (by decide : noESC "")
  | cons f fs ih =>
    simp only [framesText]
    exact noESC_append _ _
      (noESC_frameLines_disabled c f (h f (by simp)).1 (h f (by simp)).2)
      (ih (fun g hg => h g (List.mem_cons_of_mem _ hg)))

/-! ## Colour output -/

/-- C12, as stated, fails: with colour output disabled, the Traced Error with
`Payload` `"\x1b[31mp"` is rendered with its payload as it is, so the output of
`formatError` and of `FailOnError` contains the ESC byte of the payload. -/
theorem formatError_disabled_ESC_counterexample :
    TracedError.formatError ansi sampleFrames false
        { OriginalError := baseError, UserMessage := "", Payload := "\x1b[31mp",
          StackTrace := [] } =
      Except.ok "Payload: \x1b[31mp\nError Details\nError: base error\n\nStack Trace\n" ∧
    FailOnError ansi sampleFrames false (GoError.traced baseError "" "\x1b[31mp" []) =
      Except.ok "Payload: \x1b[31mp\nError Details\nError: base error\n\nStack Trace\n" ∧
    ¬ noESC "Payload: \x1b[31mp\nError Details\nError: base error\n\nStack Trace\n" := by
  have h : TracedError.formatError ansi sampleFrames false
      { OriginalError := baseError, UserMessage := "", Payload := "\x1b[31mp",
        StackTrace := [] } =
      Except.ok "Payload: \x1b[31mp\nError Details\nError: base error\n\nStack Trace\n" := by
    simp [TracedError.formatError, baseError, GoError.Error, framesLoop_eq, sampleFrames,
      renderedFrames, framesText]
    decide
  refine ⟨h, ?_, by decide⟩
  simp only [FailOnError, errorsAs]
  rw [if_neg (by simp)]
  exact h

/-- C12, amended: with colour output disabled, `formatError` adds no ESC byte.
For every Traced Error `t` whose `Payload`, `UserMessage` and `OriginalError`
text, and whose resolved frames' function and file names, contain no ESC byte,
the output of `formatError`, and hence of `FailOnError` on `t`, contains no ESC
byte. -/
theorem formatError_disabled_noESC (c : Palette) (CallersFrames : List Nat → List Frame)
    (t : TracedError) (text : String)
    (htext : t.OriginalError.Error = Except.ok text)
    (h1 : noESC t.Payload) (h2 : noESC t.UserMessage) (h3 : noESC text)
    (h4 : ∀ f ∈ CallersFrames t.StackTrace, noESC f.Function ∧ noESC f.File) :
    ∃ out, t.formatError c CallersFrames false = Except.ok out ∧
      FailOnError c CallersFrames false t.toError = Except.ok out ∧ noESC out := by
  have hf : t.formatError c CallersFrames false =
      Except.ok (formatHeader c false t text ++
        framesText c false (renderedFrames (CallersFrames t.StackTrace))) := by
    rw [formatError_eq, htext]
  refine ⟨_, hf, ?_, ?_⟩
  · unfold FailOnError
    rw [if_neg (toError_ne_nil t), errorsAs_toError]
    exact hf
  · exact noESC_append _ _ (noESC_formatHeader_disabled c t text h1 h2 h3)
      (noESC_framesText_disabled c _
        (fun f hf => h4 f ((renderedFrames_sublist _).subset hf)))

/-- Witness of `formatError_disabled_noESC` on a wrapped `errors.New("base error")`. -/
theorem formatError_disabled_noESC_witness :
    baseError.Error = Except.ok "base error" ∧ noESC "payload" ∧ noESC "message" ∧
      noESC "base error" ∧
      (∀ f ∈ sampleFrames [1, 2, 3, 4], noESC f.Function ∧ noESC f.File) ∧
      ∃ out, TracedError.formatError ansi sampleFrames false
          ⟨baseError, "message", "payload", [1, 2, 3, 4]⟩ = Except.ok out ∧
        FailOnError ansi sampleFrames false
          (TracedError.toError ⟨baseError, "message", "payload", [1, 2, 3, 4]⟩) =
            Except.ok out ∧
        noESC out :=
  ⟨rfl, by decide, by decide, by decide, by decide,
    formatError_disabled_noESC ansi sampleFrames ⟨baseError, "message", "payload", [1, 2, 3, 4]⟩
      "base error" rfl (by decide) (by decide) (by decide) (by decide)⟩

/-- C13: with colour output enabled, for every Traced Error `t` whose
`OriginalError.Error()` returns `text`, the error line of the output of
`formatError`, between the `Error Details` line and the rest, is exactly
`BrightRed ++ "Error" ++ Reset ++ ": " ++ Red ++ text ++ Reset ++ "\n"`; with
colour constants for which the assertion of `TestFormatWithColor` holds, `Red`
is `ESC[31m` and `Reset` is `ESC[0m`, so the error text is enclosed by `ESC[31m`
before it and `ESC[0m` after it. -/
theorem formatError_error_line_enabled (c : Palette)
    (CallersFrames : List Nat → List Frame) (t : TracedError) (text : String)
    (htext : t.OriginalError.Error = Except.ok text)
    (htest : formatWithColor c true c.Red "test" = "\x1b[31mtest\x1b[0m") :
    t.formatError c CallersFrames true =
        Except.ok
          ((if t.Payload ≠ "" then
              formatWithColor c true c.BrightYellow "Payload" ++ ": " ++ t.Payload ++ "\n"
            else "") ++
          ((formatWithColor c true c.BrightWhite "Error Details" ++ "\n") ++
          ((c.BrightRed ++ "Error" ++ c.Reset ++ ": " ++ c.Red ++ text ++ c.Reset ++ "\n") ++
          ((if t.UserMessage ≠ "" then
              formatWithColor c true c.BrightCyan "User Message" ++ ": " ++
                formatWithColor c true c.Cyan t.UserMessage ++ "\n"
            else "") ++
          (("\n" ++ formatWithColor c true c.BrightWhite "Stack Trace" ++ "\n") ++
            framesText c true (renderedFrames (CallersFrames t.StackTrace))))))) ∧
      c.BrightRed ++ "Error" ++ c.Reset ++ ": " ++ c.Red ++ text ++ c.Reset ++ "\n" =
        c.BrightRed ++ "Error" ++ "\x1b[0m" ++ ": " ++ "\x1b[31m" ++ text ++ "\x1b[0m" ++ "\n" := by
  obtain ⟨hred, hreset⟩ := red_reset_of_test c htest
  constructor
  · rw [formatError_eq, htext]
    simp only [formatHeader_eq, formatWithColor, if_true, String.append_assoc]
  · rw [hred, hreset]

/-- Witness of `formatError_error_line_enabled` with the constants of the spec. -/
theorem formatError_error_line_enabled_witness :
    baseError.Error = Except.ok "base error" ∧
      formatWithColor ansi true ansi.Red "test" = "\x1b[31mtest\x1b[0m" ∧
      TracedError.formatError ansi sampleFrames true ⟨baseError, "", "", [1, 2, 3, 4]⟩ =
        Except.ok
          ((if "" ≠ "" then
              formatWithColor ansi true ansi.BrightYellow "Payload" ++ ": " ++ "" ++ "\n"
            else "") ++
          ((formatWithColor ansi true ansi.BrightWhite "Error Details" ++ "\n") ++
          ((ansi.BrightRed ++ "Error" ++ ansi.Reset ++ ": " ++ ansi.Red ++ "base error" ++
              ansi.Reset ++ "\n") ++
          ((if "" ≠ "" then
              formatWithColor ansi true ansi.BrightCyan "User Message" ++ ": " ++
                formatWithColor ansi true ansi.Cyan "" ++ "\n"
            else "") ++
          (("\n" ++ formatWithColor ansi true ansi.BrightWhite "Stack Trace" ++ "\n") ++
            framesText ansi true (renderedFrames (sampleFrames [1, 2, 3, 4]))))))) ∧
      ansi.BrightRed ++ "Error" ++ ansi.Reset ++ ": " ++ ansi.Red ++ "base error" ++
          ansi.Reset ++ "\n" =
        ansi.BrightRed ++ "Error" ++ "\x1b[0m" ++ ": " ++ "\x1b[31m" ++ "base error" ++
          "\x1b[0m" ++ "\n" :=
  ⟨rfl, by decide,
    formatError_error_line_enabled ansi sampleFrames ⟨baseError, "", "", [1, 2, 3, 4]⟩
      "base error" rfl (by decide)⟩

theorem Strips_formatHeader (c : Palette) (t : TracedError) (text : String)
    (hc : c.IsSGR) (h1 : noESC t.Payload) (h2 : noESC t.UserMessage) (h3 : noESC text) :
    Strips (formatHeader c true t text) (formatHeader c false t text) := by
  obtain ⟨hReset, hRed, hBrightRed, hBrightYellow, hBrightWhite, hBrightCyan, hCyan, -, -⟩ := hc
  have hlit : ∀ s : String, noESC s → Strips s s := Strips_text
  rw [formatHeader_eq, formatHeader_eq]
  refine Strips_append _ _ _ _ ?_ (Strips_append _ _ _ _ ?_ (Strips_append _ _ _ _ ?_
    (Strips_append _ _ _ _ ?_ ?_)))
  · by_cases hp : t.Payload ≠ ""
    · rw [if_pos hp, if_pos hp]
      exact Strips_append _ _ _ _ (Strips_append _ _ _ _ (Strips_append _ _ _ _
        (Strips_formatWithColor c _ _ hBrightYellow hReset (by decide))
        (hlit _ (by decide))) (hlit _ h1)) (hlit _ (by decide))
    · rw [if_neg hp, if_neg hp]
      exact hlit _ (by decide)
  · exact Strips_append _ _ _ _
      (Strips_formatWithColor c _ _ hBrightWhite hReset (by decide)) (hlit _ (by decide))
  · exact Strips_append _ _ _ _ (Strips_append _ _ _ _ (Strips_append _ _ _ _
      (Strips_formatWithColor c _ _ hBrightRed hReset (by decide))
      (hlit _ (by decide))) (Strips_formatWithColor c _ _ hRed hReset h3))
      (hlit _ (by decide))
  · by_cases hm : t.UserMessage ≠ ""
    · rw [if_pos hm, if_pos hm]
      exact Strips_append _ _ _ _ (Strips_append _ _ _ _ (Strips_append _ _ _ _
        (Strips_formatWithColor c _ _ hBrightCyan hReset (by decide))
        (hlit _ (by decide))) (Strips_formatWithColor c _ _ hCyan hReset h2))
        (hlit _ (by decide))
    · rw [if_neg hm, if_neg hm]
      exact hlit _ (by decide)
  · exact Strips_append _ _ _ _ (Strips_append _ _ _ _ (hlit _ (by decide))
      (Strips_formatWithColor c _ _ hBrightWhite hReset (by decide))) (hlit _ (by decide))

theorem Strips_frameLines (c : Palette) (f : Frame) (hc : c.IsSGR)
    (h1 : noESC f.Function) (h2 : noESC f.File) :
    Strips (frameLines c true f) (frameLines c false f) := by
  obtain ⟨hReset, -, -, -, -, -, -, hBrightBlue, hWhite⟩ := hc
  unfold frameLines
  exact Strips_append _ _ _ _
    (Strips_append _ _ _ _ (Strips_formatWithColor c _ _ hBrightBlue hReset h1)
      (Strips_text _ (by decide)))
    (Strips_append _ _ _ _ (Strips_append _ _ _ _ (Strips_append _ _ _ _
      (Strips_append _ _ _ _ (Strips_text _ (by decide))
        (Strips_formatWithColor c _ _ hWhite hReset h2))
      (Strips_text _ (by decide))) (Strips_text _ (noESC_toString_int _)))
      (Strips_text _ (by decide)))

theorem Strips_framesText (c : Palette) (fs : List Frame) (hc : c.IsSGR)
    (h : ∀ f ∈ fs, noESC f.Function ∧ noESC f.File) :
    Strips (framesText c true fs) (framesText c false fs) := by
  induction fs with
  | nil => exact Strips_text "" (by decide)
  | cons f fs ih =>
    simp only [framesText]
    exact Strips_append _ _ _ _
      (Strips_frameLines c f hc (h f (by simp)).1 (h f (by simp)).2)
      (ih (fun g hg => h g (List.mem_cons_of_mem _ hg)))

/-- C14: colour changes only the escape sequences, not the text. For colour
constants that are SGR sequences (`ESC[<n>m`), and for every Traced Error `t`
whose `Payload`, `UserMessage` and `OriginalError` text, and whose resolved
frames' function and file names, contain no ESC character, deleting every SGR
sequence from the colour-enabled output of `formatError` yields exactly the
colour-disabled output of `formatError` on the same `t`. -/
theorem stripSGR_formatError_enabled (c : Palette) (CallersFrames : List Nat → List Frame)
    (t : TracedError) (text : String) (hc : c.IsSGR)
    (htext : t.OriginalError.Error = Except.ok text)
    (h1 : noESC t.Payload) (h2 : noESC t.UserMessage) (h3 : noESC text)
    (h4 : ∀ f ∈ CallersFrames t.StackTrace, noESC f.Function ∧ noESC f.File) :
    ∃ coloured uncoloured,
      t.formatError c CallersFrames true = Except.ok coloured ∧
      t.formatError c CallersFrames false = Except.ok uncoloured ∧
      stripSGR coloured = uncoloured := by
  refine ⟨formatHeader c true t text ++
      framesText c true (renderedFrames (CallersFrames t.StackTrace)),
    formatHeader c false t text ++
      framesText c false (renderedFrames (CallersFrames t.StackTrace)), ?_, ?_, ?_⟩
  · rw [formatError_eq, htext]
  · rw [formatError_eq, htext]
  · exact stripSGR_of_Strips _ _
      (Strips_append _ _ _ _ (Strips_formatHeader c t text hc h1 h2 h3)
        (Strips_framesText c _ hc
          (fun f hf => h4 f ((renderedFrames_sublist _).subset hf))))

/-- Witness of `stripSGR_formatError_enabled` with the constants of the spec, on
a wrapped `errors.New("base error")`. -/
theorem stripSGR_formatError_enabled_witness :
    ansi.IsSGR ∧ baseError.Error = Except.ok "base error" ∧
      noESC "payload" ∧ noESC "message" ∧ noESC "base error" ∧
      (∀ f ∈ sampleFrames [1, 2, 3, 4], noESC f.Function ∧ noESC f.File) ∧
      ∃ coloured uncoloured,
        TracedError.formatError ansi sampleFrames true
          ⟨baseError, "message", "payload", [1, 2, 3, 4]⟩ = Except.ok coloured ∧
        TracedError.formatError ansi sampleFrames false
          ⟨baseError, "message", "payload", [1, 2, 3, 4]⟩ = Except.ok uncoloured ∧
        stripSGR coloured = uncoloured :=
  ⟨by decide, rfl, by decide, by decide, by decide, by decide,
    stripSGR_formatError_enabled ansi sampleFrames
      ⟨baseError, "message", "payload", [1, 2, 3, 4]⟩ "base error"
      (by decide) rfl (by decide) (by decide) (by decide) (by decide)⟩

end errorhandler
